import Mathlib

/-!
Verification of the AIPA command-line orchestrator (src/main.rs).

The Rust program is shallowly embedded: pure functions (`get_filename`,
`generate_code`) become Lean functions; effectful functions
(`execute_code`, `cleanup`, `process_task`, `prompt_for_fix`) become
functions over explicit environments (oracles describing the filesystem
and subprocess outcomes) that return an `Except` value together with a
trace of the external effects they perform.  String byte streams that
Rust converts with `from_utf8_lossy` are modelled directly as `String`.

All string helpers are implemented over `String.data` (lists of
characters) so that every definition evaluates inside the kernel.
-/

deriving instance DecidableEq for Except

namespace Aipa

/-- The Task struct of src/main.rs (lines 21-25): a language and a goal. -/
structure Task where
  language : String
  goal : String
deriving DecidableEq

/-- The ExecutionResult struct of src/main.rs (lines 408-413). -/
structure ExecutionResult where
  success : Bool
  output : String
  error : Option String
deriving DecidableEq

/-- Outcome of one subprocess invocation (exit-status success flag plus the
captured stdout and stderr, already decoded as text). -/
structure ProcOut where
  statusSuccess : Bool
  stdout : String
  stderr : String
deriving DecidableEq

/-- Observable external effects of the program: filesystem removals,
subprocess spawns (tagged by the command they run) and path
canonicalization probes. -/
inductive Effect where
  | fsRemove (path : String)
  | spawn (cmd : String)
  | canonicalize (path : String)
deriving DecidableEq

/-- Oracle for one `execute_code` call: what the filesystem and the
spawned subprocesses do.  `staleExists` is whether the expected build
artifact already exists before compiling, `removeOk` whether removing it
succeeds, `compileSpawnOk`/`runSpawnOk` whether `Command::output()` itself
succeeds for the compile and run subprocesses, `compile`/`run` the
captured subprocess outcomes, `builtExists` whether the expected artifact
exists after a successful compile, and `canonicalPath` the result of
`fs::canonicalize` (valid when `canonicalizeOk` is true). -/
structure ExecEnv where
  staleExists : Bool
  removeOk : Bool
  compileSpawnOk : Bool
  compile : ProcOut
  builtExists : Bool
  canonicalizeOk : Bool
  canonicalPath : String
  runSpawnOk : Bool
  run : ProcOut
deriving DecidableEq

/-- One entry returned by `fs::read_dir`. -/
structure DirEntry where
  path : String
  isFile : Bool
deriving DecidableEq

/-- Oracle for one `cleanup` call: existence and removability of the
source artifact and the derived binary, whether `read_dir` succeeds, the
directory entries it yields, and whether removing matching class files
succeeds. -/
structure FsEnv where
  sourceExists : Bool
  sourceRemoveOk : Bool
  binaryExists : Bool
  binaryRemoveOk : Bool
  readDirOk : Bool
  entries : List DirEntry
  classRemoveOk : Bool
deriving DecidableEq

/-! ## String helpers

Rust's `str::trim`, `str::starts_with`, `str::trim_start_matches` and
single-character `str::replace` / `split`, modelled over `String.data` so
they reduce in the kernel. -/

/-- Whitespace test used by `str::trim` (restricted to the ASCII
whitespace characters that can occur here). -/
def isWs (c : Char) : Bool :=
  c = ' ' || c = '\t' || c = '\r' || c = '\n'

/-- Models Rust `str::trim`: drop leading and trailing whitespace. -/
def trimString (s : String) : String :=
  String.mk (((s.data.dropWhile isWs).reverse.dropWhile isWs).reverse)

/-- Models Rust `str::is_empty` on the trimmed string. -/
def strIsEmpty (s : String) : Bool :=
  s.data.isEmpty

/-- Models Rust `str::starts_with` for a string pattern. -/
def strStartsWith (s pat : String) : Bool :=
  pat.data.isPrefixOf s.data

/-- Drop the first `n` characters of a string. -/
def dropChars (s : String) (n : Nat) : String :=
  String.mk (s.data.drop n)

/-- Fuel-driven worker for `trimStartMatchesAll`; the fuel is the length
of the subject string, which bounds the number of strips. -/
def trimStartMatchesAllAux (pat : String) : Nat → String → String
  | 0, s => s
  | n + 1, s =>
    if pat.data.length ≠ 0 && strStartsWith s pat then
      trimStartMatchesAllAux pat n (dropChars s pat.data.length)
    else
      s

/-- Models Rust `str::trim_start_matches(pat)`: repeatedly strip `pat`
from the front while it is a prefix. -/
def trimStartMatchesAll (s pat : String) : String :=
  trimStartMatchesAllAux pat s.data.length s

/-- Split a string at every occurrence of a separator character; models
Rust/std `split` for a one-character pattern (always returns at least one
piece). -/
def splitOnCharAux (sep : Char) : List Char → List Char → List (List Char)
  | [], cur => [cur.reverse]
  | c :: cs, cur =>
    if c = sep then cur.reverse :: splitOnCharAux sep cs []
    else splitOnCharAux sep cs (c :: cur)

/-- Split a string on a separator character. -/
def splitOnChar (sep : Char) (s : String) : List String :=
  (splitOnCharAux sep s.data []).map String.mk

/-- Join strings with a separator. -/
def joinWith (sep : String) : List String → String
  | [] => ""
  | [x] => x
  | x :: xs => x ++ sep ++ joinWith sep xs

/-! ## Path helpers

Models of the `std::path` operations the program uses, for ordinary
paths of the shape `dir/name.ext`. -/

/-- Models `PathBuf::join` for a relative file name. -/
def pathJoin (dir name : String) : String :=
  dir ++ "/" ++ name

/-- Stem of a bare file name: the part before the final dot, as in
`Path::file_stem` (a name without a dot, or a lone leading dot, is its
own stem). -/
def stemOfName (name : String) : String :=
  let parts := splitOnChar '.' name
  match parts with
  | [] => name
  | [_] => name
  | _ =>
    let stem := joinWith "." parts.dropLast
    if strIsEmpty stem then name else stem

/-- Extension of a bare file name: the part after the final dot, as in
`Path::extension`. -/
def extOfName (name : String) : Option String :=
  let parts := splitOnChar '.' name
  match parts with
  | [] => none
  | [_] => none
  | _ =>
    if strIsEmpty (joinWith "." parts.dropLast) then none
    else some (parts.getLastD "")

/-- Last component of a path. -/
def lastComponent (p : String) : String :=
  (splitOnChar '/' p).getLastD ""

/-- Models `PathBuf::with_extension("")`: drop the extension of the final
path component. -/
def withExtEmpty (p : String) : String :=
  let comps := splitOnChar '/' p
  joinWith "/" (comps.dropLast ++ [stemOfName (comps.getLastD "")])

/-- Models `Path::file_stem` on a full path. -/
def fileStem (p : String) : String :=
  stemOfName (lastComponent p)

/-- Models `Path::extension` on a full path. -/
def extensionOf (p : String) : Option String :=
  extOfName (lastComponent p)

/-! ## get_filename (src/main.rs lines 123-132) -/

/-- Extension table of `get_filename` (lines 124-130). -/
def extOf (language : String) : String :=
  if language = "rust" then "rs"
  else if language = "python" then "py"
  else if language = "cpp" then "cpp"
  else if language = "java" then "java"
  else "txt"

/-- Models `task.goal.replace(" ", "_")`: the pattern is the single
character `' '`, so the replacement is a per-character map. -/
def replaceSpaceWithUnderscore (s : String) : String :=
  String.mk (s.data.map fun c => if c = ' ' then '_' else c)

/-- The `get_filename` function (line 131):
`format!("project_{}.{}", task.goal.replace(" ", "_"), ext)`. -/
def getFilename (task : Task) : String :=
  "project_" ++ replaceSpaceWithUnderscore task.goal ++ "." ++ extOf task.language

/-! ## generate_code (src/main.rs lines 78-95) -/

/-- The `generate_code` templates, with the `format!` placeholder filled
by the goal. -/
def generateCode (task : Task) : String :=
  if task.language = "rust" then
    "fn main() \x7b println!(\"AIPA: " ++ task.goal ++ " completed\"); \x7d"
  else if task.language = "python" then
    "print('AIPA: " ++ task.goal ++ " completed')"
  else if task.language = "cpp" then
    "#include <iostream>\nint main() \x7b\n    std::cout << \"AIPA: " ++ task.goal
      ++ " completed\" << std::endl;\n    return 0;\n\x7d"
  else if task.language = "java" then
    "public class project_print_hello \x7b\n    public static void main(String[] args) \x7b\n        System.out.println(\"AIPA: "
      ++ task.goal ++ " completed\");\n    \x7d\n\x7d"
  else
    "# Unsupported language: " ++ task.language

/-! ## prompt_for_fix (src/main.rs lines 97-121)

The collection loop is modelled over the list of lines the interactive
input will deliver before it ends.  In Rust, `read_line` at end of input
returns `Ok(0)` leaving the buffer empty, so once the list is exhausted
every further read behaves like a blank line and the loop state no longer
changes: the loop breaks (returning the accumulated text) exactly when
the accumulated text is non-blank, and otherwise spins forever.  `none`
models that divergence; the function has no error outcome because the
loop body only propagates genuine I/O errors, which the oracle does not
produce. -/

/-- The filter condition of line 114:
`!trimmed_line.is_empty() && trimmed_line != ">" && !trimmed_line.starts_with("Enter fixed code")`,
applied to the already-trimmed line. -/
def keepsLine (t : String) : Bool :=
  !strIsEmpty t && !(t = ">") && !strStartsWith t "Enter fixed code"

/-- The cleaning of line 115:
`trimmed_line.trim_start_matches("> ").trim_start_matches(">")`. -/
def cleanLine (t : String) : String :=
  trimStartMatchesAll (trimStartMatchesAll t "> ") ">"

/-- The collection loop of `prompt_for_fix` (lines 105-120), run against
the list of lines the input stream still holds.  `some s` is a normal
return of `Ok(s)`; `none` is the loop spinning forever at end of input. -/
def collectFix : List String → String → Option String
  | [], fixedCode =>
    if strIsEmpty (trimString fixedCode) then none
    else some (trimString fixedCode)
  | line :: rest, fixedCode =>
    let trimmedLine := trimString line
    if strIsEmpty trimmedLine && !strIsEmpty (trimString fixedCode) then
      some (trimString fixedCode)
    else if keepsLine trimmedLine then
      collectFix rest (fixedCode ++ cleanLine trimmedLine ++ "\n")
    else
      collectFix rest fixedCode

/-- The text `prompt_for_fix` accumulates over a list of lines when no
blank line interrupts it: each kept line contributes its cleaned trimmed
text plus a newline. -/
def accumulate (input : List String) (acc : String) : String :=
  input.foldl
    (fun a line =>
      if keepsLine (trimString line) then a ++ cleanLine (trimString line) ++ "\n"
      else a)
    acc

/-! ## execute_code (src/main.rs lines 178-405) -/

/-- The result the source builds after running a program (lines 242-250,
256-264, 327-335, 389-397): success mirrors the exit status, stderr is
kept only on failure. -/
def mkRunResult (p : ProcOut) : ExecutionResult :=
  { success := p.statusSuccess
    output := p.stdout
    error := if p.statusSuccess then none else some p.stderr }

/-- The rust branch (lines 181-251) and the cpp branch (lines 266-336)
of `execute_code` are textually identical except for the compiler
executable name, so both are rendered by this one definition: remove a
stale binary if present, spawn the compiler, classify a failed compile,
check the binary was produced, canonicalize its path and run it.
`Except.error` models an `anyhow` error propagated with `?`. -/
def compiledNativeRun (compiler filepath : String) (env : ExecEnv) :
    Except String (ExecutionResult × List Effect) :=
  let outputPath := withExtEmpty filepath
  if env.staleExists && !env.removeOk then
    Except.error "failed to remove stale binary"
  else
    let preTr : List Effect := if env.staleExists then [Effect.fsRemove outputPath] else []
    if !env.compileSpawnOk then
      Except.error ("failed to spawn " ++ compiler)
    else
      let tr := preTr ++ [Effect.spawn compiler]
      if !env.compile.statusSuccess then
        Except.ok ({ success := false, output := "", error := some env.compile.stderr }, tr)
      else if !env.builtExists then
        Except.ok ({ success := false, output := ""
                     error := some ("Binary not created at \"" ++ outputPath ++ "\"") }, tr)
      else if !env.canonicalizeOk then
        Except.error "failed to canonicalize binary path"
      else if !env.runSpawnOk then
        Except.error "Failed to execute binary"
      else
        Except.ok (mkRunResult env.run,
          tr ++ [Effect.canonicalize outputPath, Effect.spawn env.canonicalPath])

/-- The python branch of `execute_code` (lines 252-265): run the
interpreter on the source file and derive the outcome from its exit
status and streams. -/
def interpretedRun (env : ExecEnv) : Except String (ExecutionResult × List Effect) :=
  if !env.runSpawnOk then
    Except.error "failed to spawn python"
  else
    Except.ok (mkRunResult env.run, [Effect.spawn "python"])

/-- The java branch of `execute_code` (lines 337-398): remove a stale
class file, spawn `javac`, classify a failed compile, check the class
file was produced, and run `java` on the fixed class name. -/
def bytecodeRun (dir : String) (env : ExecEnv) :
    Except String (ExecutionResult × List Effect) :=
  let classFile := pathJoin dir "project_print_hello.class"
  if env.staleExists && !env.removeOk then
    Except.error "failed to remove stale class file"
  else
    let preTr : List Effect := if env.staleExists then [Effect.fsRemove classFile] else []
    if !env.compileSpawnOk then
      Except.error "failed to spawn javac"
    else
      let tr := preTr ++ [Effect.spawn "javac"]
      if !env.compile.statusSuccess then
        Except.ok ({ success := false, output := "", error := some env.compile.stderr }, tr)
      else if !env.builtExists then
        Except.ok ({ success := false, output := ""
                     error := some ("Class file not created at \"" ++ classFile ++ "\"") }, tr)
      else if !env.runSpawnOk then
        Except.error "failed to spawn java"
      else
        Except.ok (mkRunResult env.run, tr ++ [Effect.spawn "java"])

/-- The `execute_code` function: the dispatch of line 180 over the four
supported languages, with the wildcard arm (lines 399-403) returning the
fixed unsupported-language outcome untouched by any effect. -/
def executeCode (dir : String) (task : Task) (filename : String) (env : ExecEnv) :
    Except String (ExecutionResult × List Effect) :=
  let filepath := pathJoin dir filename
  if task.language = "rust" then
    compiledNativeRun "rustc" filepath env
  else if task.language = "python" then
    interpretedRun env
  else if task.language = "cpp" then
    compiledNativeRun "g++" filepath env
  else if task.language = "java" then
    bytecodeRun dir env
  else
    Except.ok ({ success := false, output := "", error := some "Unsupported language" }, [])

/-- The commands a trace spawned, in order. -/
def spawnsOf (tr : List Effect) : List String :=
  tr.filterMap fun e =>
    match e with
    | Effect.spawn c => some c
    | _ => none

/-- The compiler executable each compiled language invokes. -/
def compilerFor (language : String) : String :=
  if language = "rust" then "rustc"
  else if language = "cpp" then "g++"
  else if language = "java" then "javac"
  else ""

/-- The trace `execute_code` leaves behind when the compile subprocess
reports failure: the optional stale-artifact removal followed by the
compiler spawn, and nothing else. -/
def compileFailTrace (dir : String) (task : Task) (filename : String) (env : ExecEnv) :
    List Effect :=
  let stalePath :=
    if task.language = "java" then pathJoin dir "project_print_hello.class"
    else withExtEmpty (pathJoin dir filename)
  (if env.staleExists then [Effect.fsRemove stalePath] else [])
    ++ [Effect.spawn (compilerFor task.language)]

/-! ## cleanup (src/main.rs lines 145-176) -/

/-- The class-file filter of line 167: a file whose stem starts with
`project_print_hello` and whose extension is `class`. -/
def isMatchingClassFile (e : DirEntry) : Bool :=
  e.isFile && strStartsWith (fileStem e.path) "project_print_hello"
    && (extensionOf e.path == some "class")

/-- The `cleanup` function: remove the source artifact, then the derived
binary, then (for java) every matching class file in the project
directory.  Each `fs::remove_file` and the `read_dir` use `?`, so a
single failure aborts with `Except.error`; on success the trace of
removals is returned. -/
def cleanup (dir : String) (task : Task) (fs : FsEnv) :
    Except String (List Effect) :=
  let sourcePath := pathJoin dir (getFilename task)
  let binaryPath := withExtEmpty sourcePath
  if fs.sourceExists && !fs.sourceRemoveOk then
    Except.error "failed to remove source file"
  else
    let tr1 : List Effect := if fs.sourceExists then [Effect.fsRemove sourcePath] else []
    if fs.binaryExists && !fs.binaryRemoveOk then
      Except.error "failed to remove binary"
    else
      let tr2 := tr1 ++ (if fs.binaryExists then [Effect.fsRemove binaryPath] else [])
      if task.language = "java" then
        if !fs.readDirOk then
          Except.error "failed to read project directory"
        else
          let found := fs.entries.filter isMatchingClassFile
          if !found.isEmpty && !fs.classRemoveOk then
            Except.error "failed to remove class file"
          else
            Except.ok (tr2 ++ found.map fun e => Effect.fsRemove e.path)
      else
        Except.ok tr2

/-! ## process_task (src/main.rs lines 43-76) -/

/-- The retry budget (line 44). -/
def MAX_ATTEMPTS : Nat := 3

/-- The attempt loop of `process_task` (lines 55-72), with the outcome of
the i-th `execute_code` call supplied by the oracle `results` and the
text each `prompt_for_fix` call returns supplied by `fixes` (given the
attempt number and the code it is shown; the repair interaction is
assumed to return — its divergence or failure would simply stop the run
before the next attempt).  The fuel argument counts the remaining loop
iterations; the function returns the composed `result_msg` together with
the number of execution attempts performed. -/
def processFrom (results : Nat → ExecutionResult) (fixes : Nat → String → String)
    (code : String) (attempt : Nat) : Nat → String × Nat
  | 0 => ("", 0)
  | fuel + 1 =>
    let r := results attempt
    if r.success then
      ("Success! Output: " ++ r.output, 1)
    else
      let errorMsg := r.error.getD "Unknown error"
      if attempt = MAX_ATTEMPTS then
        ("Error after " ++ toString MAX_ATTEMPTS ++ " attempts: " ++ errorMsg, 1)
      else
        let next := processFrom results fixes (fixes attempt code) (attempt + 1) fuel
        (next.1, next.2 + 1)

/-- The code `process_task` starts from (lines 46-52): the artifact
already on disk when one exists, the generated template otherwise. -/
def initialCode (task : Task) (existing : Option String) : String :=
  match existing with
  | some c => c
  | none => generateCode task

/-- The `process_task` function: run the attempt loop starting at attempt
1 with budget `MAX_ATTEMPTS`, then call `cleanup` with `?` (line 74) and
finally return the composed message (line 75).  A cleanup failure
therefore replaces the composed message with the propagated error. -/
def processTask (dir : String) (task : Task) (existing : Option String)
    (results : Nat → ExecutionResult) (fixes : Nat → String → String) (fs : FsEnv) :
    Except String String :=
  let code := initialCode task existing
  let run := processFrom results fixes code 1 MAX_ATTEMPTS
  match cleanup dir task fs with
  | Except.error e => Except.error e
  | Except.ok _ => Except.ok run.1

/-! ## Concrete oracles used by witnesses and counterexamples -/

/-- An execution oracle on which every attempt fails with stderr `boom`. -/
def cexResults : Nat → ExecutionResult :=
  fun _ => { success := false, output := "", error := some "boom" }

/-- A repair oracle that always returns the same replacement text. -/
def cexFixes : Nat → String → String :=
  fun _ _ => "fixed"

/-- A filesystem oracle on which the source artifact exists but cannot be
removed. -/
def fsFailSource : FsEnv :=
  { sourceExists := true, sourceRemoveOk := false, binaryExists := false
    binaryRemoveOk := true, readDirOk := true, entries := [], classRemoveOk := true }

/-- A filesystem oracle on which cleanup finds nothing to remove and
succeeds. -/
def fsAllClear : FsEnv :=
  { sourceExists := false, sourceRemoveOk := true, binaryExists := false
    binaryRemoveOk := true, readDirOk := true, entries := [], classRemoveOk := true }

/-- An execution oracle describing a failed compile with stderr `err`. -/
def envCompileFail : ExecEnv :=
  { staleExists := false, removeOk := true, compileSpawnOk := true
    compile := { statusSuccess := false, stdout := "", stderr := "err" }
    builtExists := false, canonicalizeOk := true, canonicalPath := ""
    runSpawnOk := true, run := { statusSuccess := true, stdout := "", stderr := "" } }

/-- An execution oracle describing a successful interpreted run printing
`hi`. -/
def envRunOk : ExecEnv :=
  { staleExists := false, removeOk := true, compileSpawnOk := true
    compile := { statusSuccess := true, stdout := "", stderr := "" }
    builtExists := true, canonicalizeOk := true, canonicalPath := "/p/bin"
    runSpawnOk := true, run := { statusSuccess := true, stdout := "hi", stderr := "" } }

/-! ## General helper lemmas -/

/-- Appending strings appends their character data. -/
theorem data_append (a b : String) : (a ++ b).data = a.data ++ b.data := rfl

/-- Character data of the space-replacing map. -/
theorem data_replaceSpace (s : String) :
    (replaceSpaceWithUnderscore s).data = s.data.map fun c => if c = ' ' then '_' else c := rfl

/-- No extension in the `get_filename` table contains a space. -/
theorem extOf_space_free (language : String) : ' ' ∉ (extOf language).data := by
  unfold extOf
  split_ifs <;> decide

/-- The file name derived from any Task contains no space character:
`replace(" ", "_")` eliminates every space of the goal and the fixed
pieces contain none. -/
theorem getFilename_space_not_mem (t : Task) : ' ' ∉ (getFilename t).data := by
  unfold getFilename
  rw [data_append, data_append, data_append, data_replaceSpace]
  intro h
  rcases List.mem_append.1 h with h | h
  · rcases List.mem_append.1 h with h | h
    · rcases List.mem_append.1 h with h | h
      · exact absurd h (by decide)
      · rcases List.mem_map.1 h with ⟨c, _, hc⟩
        by_cases hsp : c = ' ' <;> simp [hsp] at hc
    · exact absurd h (by decide)
  · exact extOf_space_free t.language h

/-- Unfolding `accumulate` over the first input line. -/
theorem accumulate_cons (l : String) (rest : List String) (acc : String) :
    accumulate (l :: rest) acc =
      accumulate rest
        (if keepsLine (trimString l) then acc ++ cleanLine (trimString l) ++ "\n" else acc) := by
  simp only [accumulate, List.foldl_cons]

/-- A non-blank line passing the filter is accumulated as its cleaned
trimmed text followed by a newline. -/
theorem collectFix_cons_keep (l : String) (rest : List String) (acc : String)
    (hl : strIsEmpty (trimString l) = false) (hk : keepsLine (trimString l) = true) :
    collectFix (l :: rest) acc = collectFix rest (acc ++ cleanLine (trimString l) ++ "\n") := by
  simp [collectFix, hl, hk]

/-- A non-blank line rejected by the filter is dropped entirely. -/
theorem collectFix_cons_drop (l : String) (rest : List String) (acc : String)
    (hl : strIsEmpty (trimString l) = false) (hk : keepsLine (trimString l) = false) :
    collectFix (l :: rest) acc = collectFix rest acc := by
  simp [collectFix, hl, hk]

/-- Over blank lines only, with blank accumulated content, the collection
loop never breaks. -/
theorem collectFix_all_blank (input : List String) :
    ∀ acc : String, (∀ l ∈ input, strIsEmpty (trimString l) = true) →
      strIsEmpty (trimString acc) = true → collectFix input acc = none := by
  induction input with
  | nil =>
    intro acc _ hacc
    simp [collectFix, hacc]
  | cons l rest ih =>
    intro acc h hacc
    have hl : strIsEmpty (trimString l) = true := h l (List.mem_cons_self l rest)
    have hrest : ∀ x ∈ rest, strIsEmpty (trimString x) = true :=
      fun x hx => h x (List.mem_cons_of_mem l hx)
    have hstep : collectFix (l :: rest) acc = collectFix rest acc := by
      simp [collectFix, hl, hacc, keepsLine]
    rw [hstep]
    exact ih acc hrest hacc

/-- Whenever the collection loop returns, the returned text is
non-empty. -/
theorem collectFix_some_not_blank (input : List String) :
    ∀ acc s : String, collectFix input acc = some s → strIsEmpty s = false := by
  induction input with
  | nil =>
    intro acc s h
    simp only [collectFix] at h
    by_cases hacc : strIsEmpty (trimString acc) = true
    · simp [hacc] at h
    · rw [if_neg hacc] at h
      cases h
      exact Bool.not_eq_true _ ▸ Bool.of_not_eq_true hacc
  | cons l rest ih =>
    intro acc s h
    simp only [collectFix] at h
    by_cases hbrk : (strIsEmpty (trimString l) && !strIsEmpty (trimString acc)) = true
    · rw [if_pos hbrk] at h
      cases h
      rw [Bool.and_eq_true] at hbrk
      simpa using hbrk.2
    · rw [if_neg hbrk] at h
      by_cases hk : keepsLine (trimString l) = true
      · rw [if_pos hk] at h
        exact ih _ s h
      · rw [if_neg hk] at h
        exact ih _ s h

/-- When no input line is blank, the loop consumes the whole input and
then reads end of input: it returns the trimmed accumulated text when
that is non-blank and loops forever when it is blank. -/
theorem collectFix_no_blank (input : List String) :
    ∀ acc : String, (∀ l ∈ input, strIsEmpty (trimString l) = false) →
      collectFix input acc =
        if strIsEmpty (trimString (accumulate input acc)) then none
        else some (trimString (accumulate input acc)) := by
  induction input with
  | nil =>
    intro acc _
    simp [collectFix, accumulate]
  | cons l rest ih =>
    intro acc h
    have hl : strIsEmpty (trimString l) = false := h l (List.mem_cons_self l rest)
    have hrest : ∀ x ∈ rest, strIsEmpty (trimString x) = false :=
      fun x hx => h x (List.mem_cons_of_mem l hx)
    rw [accumulate_cons]
    by_cases hk : keepsLine (trimString l) = true
    · rw [if_pos hk, collectFix_cons_keep l rest acc hl hk]
      exact ih _ hrest
    · rw [if_neg hk, collectFix_cons_drop l rest acc hl (Bool.of_not_eq_true hk)]
      exact ih _ hrest

/-- When no input line is blank and the accumulated content is non-blank,
a final blank line makes the loop return exactly the trimmed accumulated
text. -/
theorem collectFix_terminated (input : List String) :
    ∀ acc : String, (∀ l ∈ input, strIsEmpty (trimString l) = false) →
      strIsEmpty (trimString (accumulate input acc)) = false →
      collectFix (input ++ [""]) acc = some (trimString (accumulate input acc)) := by
  induction input with
  | nil =>
    intro acc _ hacc
    simp only [accumulate, List.foldl_nil] at hacc ⊢
    have h0 : strIsEmpty (trimString "") = true := rfl
    simp [collectFix, h0, hacc]
  | cons l rest ih =>
    intro acc h hacc
    have hl : strIsEmpty (trimString l) = false := h l (List.mem_cons_self l rest)
    have hrest : ∀ x ∈ rest, strIsEmpty (trimString x) = false :=
      fun x hx => h x (List.mem_cons_of_mem l hx)
    rw [accumulate_cons] at hacc ⊢
    simp only [List.cons_append]
    by_cases hk : keepsLine (trimString l) = true
    · rw [if_pos hk] at hacc ⊢
      rw [collectFix_cons_keep l (rest ++ [""]) acc hl hk]
      exact ih _ hrest hacc
    · rw [if_neg hk] at hacc ⊢
      rw [collectFix_cons_drop l (rest ++ [""]) acc hl (Bool.of_not_eq_true hk)]
      exact ih _ hrest hacc

/-- The run-derived outcome satisfies the success/error invariant. -/
theorem mkRunResult_inv (p : ProcOut) :
    (mkRunResult p).success = true ↔ (mkRunResult p).error = none := by
  cases hp : p.statusSuccess <;> simp [mkRunResult, hp]

/-- Every ok result of the compiled-native pipeline satisfies the
success/error invariant. -/
theorem compiledNativeRun_inv (compiler filepath : String) (env : ExecEnv)
    (res : ExecutionResult) (tr : List Effect)
    (h : compiledNativeRun compiler filepath env = Except.ok (res, tr)) :
    res.success = true ↔ res.error = none := by
  simp only [compiledNativeRun] at h
  split_ifs at h
  all_goals simp only [Except.ok.injEq, Prod.mk.injEq] at h
  all_goals obtain ⟨h1, -⟩ := h
  all_goals subst h1
  all_goals first
    | exact mkRunResult_inv env.run
    | simp

/-- Every ok result of the interpreted pipeline satisfies the
success/error invariant. -/
theorem interpretedRun_inv (env : ExecEnv) (res : ExecutionResult) (tr : List Effect)
    (h : interpretedRun env = Except.ok (res, tr)) :
    res.success = true ↔ res.error = none := by
  simp only [interpretedRun] at h
  split_ifs at h
  all_goals simp only [Except.ok.injEq, Prod.mk.injEq] at h
  obtain ⟨h1, -⟩ := h
  subst h1
  exact mkRunResult_inv env.run

/-- Every ok result of the bytecode pipeline satisfies the success/error
invariant. -/
theorem bytecodeRun_inv (dir : String) (env : ExecEnv)
    (res : ExecutionResult) (tr : List Effect)
    (h : bytecodeRun dir env = Except.ok (res, tr)) :
    res.success = true ↔ res.error = none := by
  simp only [bytecodeRun] at h
  split_ifs at h
  all_goals simp only [Except.ok.injEq, Prod.mk.injEq] at h
  all_goals obtain ⟨h1, -⟩ := h
  all_goals subst h1
  all_goals first
    | exact mkRunResult_inv env.run
    | simp

/-- A failed compile makes the compiled-native pipeline return the
captured stderr and perform only the stale removal and the compiler
spawn. -/
theorem compiledNativeRun_compile_fail (compiler filepath : String) (env : ExecEnv)
    (hstale : env.staleExists = true → env.removeOk = true)
    (hspawn : env.compileSpawnOk = true)
    (hfail : env.compile.statusSuccess = false) :
    compiledNativeRun compiler filepath env =
      Except.ok ({ success := false, output := "", error := some env.compile.stderr },
        (if env.staleExists then [Effect.fsRemove (withExtEmpty filepath)] else [])
          ++ [Effect.spawn compiler]) := by
  cases hse : env.staleExists with
  | false => simp [compiledNativeRun, hse, hspawn, hfail]
  | true => simp [compiledNativeRun, hse, hstale hse, hspawn, hfail]

/-- A failed compile makes the bytecode pipeline return the captured
stderr and perform only the stale removal and the `javac` spawn. -/
theorem bytecodeRun_compile_fail (dir : String) (env : ExecEnv)
    (hstale : env.staleExists = true → env.removeOk = true)
    (hspawn : env.compileSpawnOk = true)
    (hfail : env.compile.statusSuccess = false) :
    bytecodeRun dir env =
      Except.ok ({ success := false, output := "", error := some env.compile.stderr },
        (if env.staleExists then [Effect.fsRemove (pathJoin dir "project_print_hello.class")] else [])
          ++ [Effect.spawn "javac"]) := by
  cases hse : env.staleExists with
  | false => simp [bytecodeRun, hse, hspawn, hfail]
  | true => simp [bytecodeRun, hse, hstale hse, hspawn, hfail]

/-! ## Claim theorems -/

/-- Claim C1: `process_task` performs at most MAX_ATTEMPTS (= 3)
execution attempts per Task, with attempt numbering starting at 1, and if
every attempt fails the composed message reports exhaustion, including
MAX_ATTEMPTS and the last attempt's error detail (with the
"Unknown error" placeholder substituting for a missing detail). -/
theorem process_task_attempt_bound_and_exhaustion :
    (∀ (results : Nat → ExecutionResult) (fixes : Nat → String → String) (code : String),
      (processFrom results fixes code 1 MAX_ATTEMPTS).2 ≤ MAX_ATTEMPTS) ∧
    (∀ (results : Nat → ExecutionResult) (fixes : Nat → String → String) (code : String),
      (∀ i, 1 ≤ i → i ≤ MAX_ATTEMPTS → (results i).success = false) →
      (processFrom results fixes code 1 MAX_ATTEMPTS).1 =
        "Error after " ++ toString MAX_ATTEMPTS ++ " attempts: "
          ++ ((results MAX_ATTEMPTS).error.getD "Unknown error")) := by
  constructor
  · intro results fixes code
    cases h1 : (results 1).success <;> cases h2 : (results 2).success <;>
      cases h3 : (results 3).success <;>
        simp [MAX_ATTEMPTS, processFrom, h1, h2, h3]
  · intro results fixes code h
    have h1 := h 1 (by decide) (by decide)
    have h2 := h 2 (by decide) (by decide)
    have h3 := h 3 (by decide) (by decide)
    simp [MAX_ATTEMPTS, processFrom, h1, h2, h3]

/-- Witness for C1: with every attempt failing with stderr `boom`, the
loop performs at most 3 attempts and composes the exhaustion message. -/
theorem process_task_attempt_bound_and_exhaustion_witness :
    (processFrom cexResults cexFixes "code" 1 MAX_ATTEMPTS).2 ≤ MAX_ATTEMPTS ∧
    (processFrom cexResults cexFixes "code" 1 MAX_ATTEMPTS).1 =
      "Error after 3 attempts: boom" := by
  constructor
  · exact process_task_attempt_bound_and_exhaustion.1 cexResults cexFixes "code"
  · have h := process_task_attempt_bound_and_exhaustion.2 cexResults cexFixes "code"
      (fun i _ _ => rfl)
    rw [h]
    rfl

/-- Counterexample to claim C2 as stated: when removing the source
artifact fails during cleanup, `process_task` returns the propagated
error, not the composed exhaustion message. -/
theorem cleanup_failure_aborts_task_counterexample :
    processTask "/d" { language := "rust", goal := "g" } (some "c")
        cexResults cexFixes fsFailSource = Except.error "failed to remove source file" ∧
      processTask "/d" { language := "rust", goal := "g" } (some "c")
        cexResults cexFixes fsFailSource ≠ Except.ok "Error after 3 attempts: boom" := by
  exact ⟨rfl, by decide⟩

/-- Claim C2 (amended): cleanup gates the returned message — `process_task`
returns the composed message exactly when `cleanup` succeeds, and when an
individual artifact removal fails the cleanup error replaces the composed
message as the overall task result. -/
theorem process_task_cleanup_gates_message (dir : String) (task : Task)
    (existing : Option String) (results : Nat → ExecutionResult)
    (fixes : Nat → String → String) (fs : FsEnv) :
    (∀ e, cleanup dir task fs = Except.error e →
      processTask dir task existing results fixes fs = Except.error e) ∧
    (∀ tr, cleanup dir task fs = Except.ok tr →
      processTask dir task existing results fixes fs =
        Except.ok (processFrom results fixes (initialCode task existing) 1 MAX_ATTEMPTS).1) := by
  constructor
  · intro e he
    simp [processTask, he]
  · intro tr htr
    simp [processTask, htr]

/-- Witness for C2 (amended): a failing cleanup propagates its error and
a succeeding cleanup lets the composed message through. -/
theorem process_task_cleanup_gates_message_witness :
    processTask "/d" { language := "rust", goal := "g" } (some "c")
        cexResults cexFixes fsFailSource = Except.error "failed to remove source file" ∧
      processTask "/d" { language := "rust", goal := "g" } (some "c")
        cexResults cexFixes fsAllClear =
        Except.ok (processFrom cexResults cexFixes
          (initialCode { language := "rust", goal := "g" } (some "c")) 1 MAX_ATTEMPTS).1 := by
  constructor
  · exact (process_task_cleanup_gates_message "/d" { language := "rust", goal := "g" }
      (some "c") cexResults cexFixes fsFailSource).1 "failed to remove source file" rfl
  · exact (process_task_cleanup_gates_message "/d" { language := "rust", goal := "g" }
      (some "c") cexResults cexFixes fsAllClear).2 [] rfl

/-- Claim C3: for the compiled variants (rust, cpp, java), a compile
subprocess exiting with failure makes `execute_code` return a failed
outcome whose error detail is the captured compiler stderr, and the only
subprocess spawned is the compiler — no execution of the built artifact
is attempted. -/
theorem execute_code_compile_failure_no_run (dir : String) (task : Task)
    (filename : String) (env : ExecEnv)
    (hlang : task.language = "rust" ∨ task.language = "cpp" ∨ task.language = "java")
    (hstale : env.staleExists = true → env.removeOk = true)
    (hspawn : env.compileSpawnOk = true)
    (hfail : env.compile.statusSuccess = false) :
    executeCode dir task filename env =
      Except.ok ({ success := false, output := "", error := some env.compile.stderr },
        compileFailTrace dir task filename env) ∧
      spawnsOf (compileFailTrace dir task filename env) = [compilerFor task.language] := by
  constructor
  · rcases hlang with h | h | h
    · rw [show executeCode dir task filename env
            = compiledNativeRun "rustc" (pathJoin dir filename) env from by
          simp [executeCode, h]]
      rw [compiledNativeRun_compile_fail _ _ env hstale hspawn hfail]
      simp [compileFailTrace, compilerFor, h]
    · rw [show executeCode dir task filename env
            = compiledNativeRun "g++" (pathJoin dir filename) env from by
          simp [executeCode, h]]
      rw [compiledNativeRun_compile_fail _ _ env hstale hspawn hfail]
      simp [compileFailTrace, compilerFor, h]
    · rw [show executeCode dir task filename env = bytecodeRun dir env from by
          simp [executeCode, h]]
      rw [bytecodeRun_compile_fail dir env hstale hspawn hfail]
      simp [compileFailTrace, compilerFor, h]
  · rcases hlang with h | h | h <;> cases hse : env.staleExists <;>
      simp [compileFailTrace, compilerFor, spawnsOf, h, hse]

/-- Witness for C3: a failed rust compile with stderr `err` yields the
failed outcome carrying `err` and spawns only `rustc`. -/
theorem execute_code_compile_failure_no_run_witness :
    executeCode "/d" { language := "rust", goal := "g" } "project_g.rs" envCompileFail =
      Except.ok ({ success := false, output := "", error := some "err" },
        compileFailTrace "/d" { language := "rust", goal := "g" } "project_g.rs" envCompileFail) ∧
      spawnsOf (compileFailTrace "/d" { language := "rust", goal := "g" }
        "project_g.rs" envCompileFail) = [compilerFor "rust"] := by
  have h := execute_code_compile_failure_no_run "/d" { language := "rust", goal := "g" }
    "project_g.rs" envCompileFail (Or.inl rfl) (by decide) rfl rfl
  exact ⟨h.1, h.2⟩

/-- Counterexample to claim C4 as stated: the outcome's error detail is
the capitalized string "Unsupported language", not the claimed
"unsupported language". -/
theorem unsupported_language_capitalization_counterexample :
    executeCode "/d" { language := "cobol", goal := "y" } "f" envRunOk =
      Except.ok ({ success := false, output := "", error := some "Unsupported language" }, []) ∧
      ("Unsupported language" : String) ≠ "unsupported language" := by
  exact ⟨rfl, by decide⟩

/-- Claim C4 (amended): for every unsupported language, `execute_code`
immediately returns a failed outcome with error detail
"Unsupported language" (capital U) and an empty effect trace — no
filesystem access and no subprocess spawn. -/
theorem execute_code_unsupported_language (dir : String) (task : Task)
    (filename : String) (env : ExecEnv)
    (h : task.language ∉ (["rust", "python", "cpp", "java"] : List String)) :
    executeCode dir task filename env =
      Except.ok ({ success := false, output := "", error := some "Unsupported language" }, []) := by
  simp only [List.mem_cons, List.not_mem_nil, or_false, not_or] at h
  obtain ⟨h1, h2, h3, h4⟩ := h
  simp [executeCode, h1, h2, h3, h4]

/-- Witness for C4 (amended): the `cobol` language takes the wildcard
branch with no effects. -/
theorem execute_code_unsupported_language_witness :
    executeCode "/d" { language := "cobol", goal := "y" } "f" envCompileFail =
      Except.ok ({ success := false, output := "", error := some "Unsupported language" }, []) :=
  execute_code_unsupported_language "/d" { language := "cobol", goal := "y" } "f"
    envCompileFail (by decide)

/-- Counterexample to claim C5 as stated: when the input stream ends
right after the non-blank line `x` — before any terminating blank line —
the collection returns normally with `x` (first conjunct), and when it
ends with no non-blank content at all the loop never terminates (second
conjunct); in neither case is an InputClosedError produced. -/
theorem prompt_for_fix_eof_counterexample :
    collectFix ["x"] "" = some "x" ∧ collectFix [""] "" = none := by
  exact ⟨rfl, rfl⟩

/-- Claim C5 (amended): at end of input, `read_line` keeps returning
`Ok(0)` with an empty buffer, so EOF reads behave like blank lines: after
non-blank input lines, the collection returns the trimmed accumulated
text when it is non-blank and loops forever when it is blank — it never
fails with an error. -/
theorem prompt_for_fix_eof_behavior (input : List String) (acc : String)
    (h : ∀ l ∈ input, strIsEmpty (trimString l) = false) :
    collectFix input acc =
      if strIsEmpty (trimString (accumulate input acc)) then none
      else some (trimString (accumulate input acc)) :=
  collectFix_no_blank input acc h

/-- Witness for C5 (amended): the single line `hello` followed by end of
input returns `hello`. -/
theorem prompt_for_fix_eof_behavior_witness :
    collectFix ["hello"] "" = some "hello" := by
  have h := prompt_for_fix_eof_behavior ["hello"] "" (by decide)
  rw [h]
  rfl

/-- Claim C6: an input of blank lines only never terminates the
collection loop (first conjunct), and the loop returns only once
non-blank content has been accumulated — every returned text is
non-empty (second conjunct). -/
theorem prompt_for_fix_blank_input_loops :
    (∀ input : List String,
      (∀ l ∈ input, strIsEmpty (trimString l) = true) → collectFix input "" = none) ∧
    (∀ (input : List String) (acc s : String),
      collectFix input acc = some s → strIsEmpty s = false) := by
  constructor
  · intro input h
    exact collectFix_all_blank input "" h rfl
  · exact collectFix_some_not_blank

/-- Witness for C6: two blank lines followed by end of input never
terminate, and the text returned for `x` then blank is non-empty. -/
theorem prompt_for_fix_blank_input_loops_witness :
    collectFix ["", ""] "" = none ∧ strIsEmpty "x" = false := by
  constructor
  · exact prompt_for_fix_blank_input_loops.1 ["", ""] (by decide)
  · exact prompt_for_fix_blank_input_loops.2 ["x", ""] "" "x" (by decide)

/-- Counterexample to claim C7 as stated: the goal `a/b` yields the file
name `project_a/b.rs`, which contains the path separator `/`. -/
theorem get_filename_path_separator_counterexample :
    getFilename { language := "rust", goal := "a/b" } = "project_a/b.rs" ∧
      '/' ∈ "project_a/b.rs".data := by
  exact ⟨rfl, by decide⟩

/-- Claim C7 (amended): the normalization only replaces spaces with
underscores, so the derived file name never contains a space, but other
filesystem-unsafe characters such as path separators pass through
unchanged. -/
theorem get_filename_space_free (t : Task) :
    (getFilename t).data.contains ' ' = false := by
  rw [Bool.eq_false_iff]
  intro hc
  exact absurd (by simpa using hc) (getFilename_space_not_mem t)

/-- Claim C8: `get_filename` is a pure function of the Task's language and
goal — equal fields give an equal path — and every unsupported language
maps to the generic `.txt` extension. -/
theorem get_filename_deterministic (t t' : Task)
    (hl : t.language = t'.language) (hg : t.goal = t'.goal) :
    getFilename t = getFilename t' ∧
      (t.language ∉ (["rust", "python", "cpp", "java"] : List String) →
        ∃ base, getFilename t = base ++ ".txt") := by
  obtain ⟨lang, goal⟩ := t
  obtain ⟨lang', goal'⟩ := t'
  simp only at hl hg
  subst hl
  subst hg
  refine ⟨rfl, fun h => ?_⟩
  simp only [List.mem_cons, List.not_mem_nil, or_false, not_or] at h
  obtain ⟨h1, h2, h3, h4⟩ := h
  refine ⟨"project_" ++ replaceSpaceWithUnderscore goal, ?_⟩
  unfold getFilename extOf
  simp only [h1, h2, h3, h4, if_false]
  rw [String.append_assoc]
  rfl

/-- Witness for C8: the unsupported language `cobol` maps twice to the
same path, ending in `.txt`. -/
theorem get_filename_deterministic_witness :
    getFilename { language := "cobol", goal := "y" } =
        getFilename { language := "cobol", goal := "y" } ∧
      ∃ base, getFilename { language := "cobol", goal := "y" } = base ++ ".txt" := by
  have h := get_filename_deterministic { language := "cobol", goal := "y" }
    { language := "cobol", goal := "y" } rfl rfl
  exact ⟨h.1, h.2 (by decide)⟩

/-- Claim C9: every ExecutionResult returned by `execute_code` satisfies
the invariant that success holds exactly when no error detail is carried. -/
theorem execution_result_success_iff_no_error (dir : String) (task : Task)
    (filename : String) (env : ExecEnv) (res : ExecutionResult) (tr : List Effect)
    (h : executeCode dir task filename env = Except.ok (res, tr)) :
    res.success = true ↔ res.error = none := by
  simp only [executeCode] at h
  split_ifs at h
  · exact compiledNativeRun_inv _ _ env res tr h
  · exact interpretedRun_inv env res tr h
  · exact compiledNativeRun_inv _ _ env res tr h
  · exact bytecodeRun_inv dir env res tr h
  · simp only [Except.ok.injEq, Prod.mk.injEq] at h
    obtain ⟨h1, -⟩ := h
    subst h1
    simp

/-- Witness for C9: the successful python run's result satisfies the
invariant. -/
theorem execution_result_success_iff_no_error_witness :
    (mkRunResult { statusSuccess := true, stdout := "hi", stderr := "" }).success = true ↔
      (mkRunResult { statusSuccess := true, stdout := "hi", stderr := "" }).error = none :=
  execution_result_success_iff_no_error "/d" { language := "python", goal := "g" }
    "project_g.py" envRunOk (mkRunResult envRunOk.run) [Effect.spawn "python"] rfl

/-- Counterexample to claim C10 as stated: the input line `>>> b` is
stored as ` b` — stripping the `>` run exposes leading whitespace that is
preserved — so the returned text `a\n b` has a line with leading
whitespace. -/
theorem prompt_for_fix_leading_whitespace_counterexample :
    collectFix ["a", ">>> b", ""] "" = some "a\n b" ∧
      splitOnChar '\n' "a\n b" = ["a", " b"] := by
  exact ⟨rfl, rfl⟩

/-- Claim C10 (amended): for non-blank input lines terminated by a blank
line, the returned text is the trimmed concatenation of exactly the kept
lines — each stored as its trimmed text with leading `> ` runs and then
`>` runs stripped (possibly exposing preserved whitespace), with lines
equal to `>` or beginning with `Enter fixed code` dropped entirely. -/
theorem prompt_for_fix_stored_lines (input : List String) (acc : String)
    (h : ∀ l ∈ input, strIsEmpty (trimString l) = false)
    (hne : strIsEmpty (trimString (accumulate input acc)) = false) :
    collectFix (input ++ [""]) acc = some (trimString (accumulate input acc)) :=
  collectFix_terminated input acc h hne

/-- Witness for C10 (amended): the single kept line `a` followed by the
terminating blank line returns `a`. -/
theorem prompt_for_fix_stored_lines_witness :
    collectFix ["a", ""] "" = some "a" := by
  have h := prompt_for_fix_stored_lines ["a"] "" (by decide) (by decide)
  exact h

end Aipa
